import Mathlib

set_option autoImplicit false

/-!
Verification of the `validate_github_limits` repository, which ships two
revisions of one script: `validate_github_limits_ver2.py` and
`validate_github_limits_ver3.py`.

The development shallowly embeds the scripts' data model and operations:
paths are lists of components, a directory-tree snapshot is a list of
entries (the output of `Path.rglob('*')`), and the filesystem mutated by
`move_large_file` is an explicit association-list state threaded through
the run.  Python floats appear in the source only as exact divisions of an
integer byte count by a power of two (`st_size / (1024 * 1024)` and
`/ 1024 ** 3`); for every realistic size (below 2^53 bytes) such a
division is exact in binary floating point, being a pure exponent shift,
so the embedding uses `ℚ` for these quantities without loss of fidelity.
-/

/-- A filesystem path, as its list of components (no separators). -/
abbrev FsPath := List String

/-- Characters of the `/`-joined rendering of a relative path, as produced
by Python's `str(path)` after stripping the common absolute root prefix.
Kept at the character-list level so that the string-prefix test on line 73
of `validate_github_limits_ver3.py` is modelled faithfully. -/
def joinSlash : FsPath → List Char
  | [] => []
  | [c] => c.toList
  | c :: rest => c.toList ++ '/' :: joinSlash rest

/-- Python `str(path).startswith(str(self.repo_dir / d))` from line 73 of
`validate_github_limits_ver3.py`, reduced to the path relative to
`repo_dir`: both rendered strings extend `str(repo_dir) ++ "/"`, so the
test holds exactly when the characters of `d` are a prefix of the joined
relative path. -/
def relStartsWith (d : String) (p : FsPath) : Bool :=
  d.toList.isPrefixOf (joinSlash p)

/-! ### Threshold constants

Module-level constants of `validate_github_limits_ver2.py` (lines 19-24). -/
def MAX_GITHUB_FILESIZE_MB : ℚ := 100

def MAX_GITHUB_FILESIZE_WARNING_MB : ℚ := 50

def MAX_GITHUB_FILES_PER_DIR : Nat := 1000

def MAX_GITHUB_REPO_SIZE_GB : ℚ := 100

def MAX_GITHUB_REPO_WARNING_GB : ℚ := 5

def MAX_GITHUB_REPO_RECOMMENDED_GB : ℚ := 1

/-- The `GitHubLimits` dataclass of `validate_github_limits_ver3.py`
(lines 12-19), with its field defaults. -/
structure GitHubLimits where
  MAX_FILESIZE_MB : ℚ := 100
  WARNING_FILESIZE_MB : ℚ := 50
  MAX_FILES_PER_DIR : Nat := 1000
  MAX_REPO_SIZE_GB : ℚ := 100
  WARNING_REPO_SIZE_GB : ℚ := 5
  RECOMMENDED_REPO_SIZE_GB : ℚ := 1
deriving DecidableEq, Repr

/-- The limits value every run of ver3 actually uses
(`self.limits = GitHubLimits()`, line 37). -/
def defaultLimits : GitHubLimits := {}

/-- The failure mode the specification assigns to threshold-policy
construction. -/
inductive PolicyError where
  | InvalidPolicy
deriving DecidableEq, Repr

/-- Construction of a `GitHubLimits` value.  The source dataclass
(ver3 lines 12-19) performs no validation whatsoever — `__init__` simply
stores the six field values — so construction is total; the `Except`
codomain records where the specification's `InvalidPolicy` failure would
have to surface. -/
def mkGitHubLimits (maxFileMB warnFileMB : ℚ) (maxPerDir : Nat)
    (maxRepoGB warnRepoGB recRepoGB : ℚ) : Except PolicyError GitHubLimits :=
  .ok ⟨maxFileMB, warnFileMB, maxPerDir, maxRepoGB, warnRepoGB, recRepoGB⟩

/-! ### Size classification -/
/-- `size_mb = path.stat().st_size / (1024 * 1024)` (ver2 line 62,
ver3 line 67). -/
def sizeMB (sizeBytes : Nat) : ℚ := (sizeBytes : ℚ) / (1024 * 1024)

/-- The classification outcomes of the specification's `TreeScanner`. -/
inductive EntryClassification where
  | Normal
  | SizeWarning
  | SizeViolation
  | DirectoryCountWarning
deriving DecidableEq, Repr

/-- `_handle_file_size` of `validate_github_limits_ver3.py` (lines 84-97),
viewed as the classification it assigns to a file of the given byte size:
`size_mb > limits.MAX_FILESIZE_MB` is a violation, otherwise
`size_mb > limits.WARNING_FILESIZE_MB` is a warning, otherwise the file is
normal (the function records nothing for a normal file). -/
def classifyFileSize (limits : GitHubLimits) (sizeBytes : Nat) : EntryClassification :=
  if limits.MAX_FILESIZE_MB < sizeMB sizeBytes then .SizeViolation
  else if limits.WARNING_FILESIZE_MB < sizeMB sizeBytes then .SizeWarning
  else .Normal

/-- `_handle_file_size` of `validate_github_limits_ver2.py` (lines 71-83),
which compares against the module-level constants instead of a limits
object. -/
def classifyFileSize_ver2 (sizeBytes : Nat) : EntryClassification :=
  if MAX_GITHUB_FILESIZE_MB < sizeMB sizeBytes then .SizeViolation
  else if MAX_GITHUB_FILESIZE_WARNING_MB < sizeMB sizeBytes then .SizeWarning
  else .Normal

/-- The hard per-file limit of both revisions, in bytes:
`100 * 1024 * 1024` bytes render as exactly `100.0` MB. -/
def maxFileSizeBytes : Nat := 100 * 1024 * 1024

/-- The warning per-file limit of both revisions, in bytes. -/
def warnFileSizeBytes : Nat := 50 * 1024 * 1024

/-! ### Tree snapshots and the pure scanning passes

An `Entry` records what one `Path.rglob('*')` result reports about itself:
its path relative to the repository root, the `is_file()` / `is_dir()` /
`is_symlink()` flags, and its `st_size`.  A tree snapshot is the list of
all entries in traversal order. -/
structure Entry where
  path : FsPath
  isFile : Bool
  isDir : Bool
  isSymlink : Bool
  sizeBytes : Nat
deriving DecidableEq, Repr

/-- The filter applied to every scanned entry in both revisions:
`path.is_file() and not path.is_symlink()` (ver2 line 61, ver3
lines 65 and 72, and the repo-size generator ver2 line 106). -/
def scannedB (e : Entry) : Bool := e.isFile && !e.isSymlink

/-- The per-file classification pass of `check_file_sizes` in
`validate_github_limits_ver2.py` (lines 57-65): every regular,
non-symlink file under the root is classified by `_handle_file_size`.
The pair records the relative path together with the classification the
file receives (`issues` keeps only the non-`Normal` ones). -/
def check_file_sizes_ver2 (tree : List Entry) : List (FsPath × EntryClassification) :=
  (tree.filter scannedB).map (fun e => (e.path, classifyFileSize_ver2 e.sizeBytes))

/-- The list of critical subdirectories of ver3
(`self.critical_dirs = ['src', 'data']`, line 39). -/
def critical_dirs : List String := ["src", "data"]

/-- Membership in the first scanning pass of ver3 `check_file_sizes`
(lines 60-68): `(self.repo_dir / subdir).rglob('*')` yields exactly the
entries that live strictly below the subdirectory `d`, i.e. whose first
component is `d` and which have at least one further component. -/
def ver3pass1 (d : String) (e : Entry) : Bool :=
  scannedB e && (e.path.head? == some d) && decide (2 ≤ e.path.length)

/-- The skip test of the second scanning pass of ver3 (line 73):
`any(str(path).startswith(str(self.repo_dir / d)) for d in self.critical_dirs)`. -/
def startsWithCritical (e : Entry) : Bool :=
  critical_dirs.any (fun d => relStartsWith d e.path)

/-- Membership in the second scanning pass of ver3 (lines 71-76): scanned
files whose rendered path does not extend any critical directory's
rendered path. -/
def ver3pass2 (e : Entry) : Bool := scannedB e && !startsWithCritical e

/-- `check_file_sizes` of `validate_github_limits_ver3.py` (lines 55-82)
as a classification pass: first the files under each critical
subdirectory in order, then the remaining files that survive the
string-prefix skip test. -/
def check_file_sizes_ver3 (limits : GitHubLimits) (tree : List Entry) :
    List (FsPath × EntryClassification) :=
  (critical_dirs.map (fun d =>
    (tree.filter (ver3pass1 d)).map
      (fun e => (e.path, classifyFileSize limits e.sizeBytes)))).flatten
  ++ (tree.filter ver3pass2).map
      (fun e => (e.path, classifyFileSize limits e.sizeBytes))

/-- Total repository size in bytes: the sum of `f.stat().st_size` over all
regular, non-symlink files (`check_repo_size`, ver2 lines 104-107). -/
def repoTotalBytes (tree : List Entry) : Nat :=
  ((tree.filter scannedB).map (fun e => e.sizeBytes)).sum

/-- Number of immediate children of a directory:
`len(list(path.glob('*')))` counts every entry exactly one component below
the directory (ver2 line 93, ver3 line 130). -/
def immediateChildCount (tree : List Entry) (dirPath : FsPath) : Nat :=
  (tree.filter (fun e =>
    dirPath.isPrefixOf e.path && (e.path.length == dirPath.length + 1))).length

/-- The messages a run appends to `self.issues` (and the moved-file
notice), as typed records of the information each formatted string
carries. -/
inductive IssueMsg where
  | sizeError (rel : FsPath)
  | sizeWarning (rel : FsPath)
  | movedFile (rel : FsPath) (backup : FsPath)
  | dirCountWarning (rel : FsPath) (count : Nat)
  | repoSizeError
  | repoSizeWarning
deriving DecidableEq, Repr

/-- `check_dir_file_counts` of `validate_github_limits_ver2.py`
(lines 88-99, identically ver3 lines 122-143): for every directory entry,
warn exactly when the immediate child count strictly exceeds the limit. -/
def check_dir_file_counts (maxPerDir : Nat) (tree : List Entry) : List IssueMsg :=
  (tree.filter (fun e => e.isDir)).filterMap (fun d =>
    let c := immediateChildCount tree d.path
    if maxPerDir < c then some (.dirCountWarning d.path c) else none)

/-- A four-entry tree used to witness the directory-count claim: the
directory `d` has three immediate children. -/
def c9tree : List Entry :=
  [⟨["d"], false, true, false, 0⟩,
   ⟨["d", "a"], true, false, false, 7⟩,
   ⟨["d", "b"], true, false, false, 7⟩,
   ⟨["d", "c"], false, true, false, 0⟩]

/-- A collision-free three-file tree used to witness the amended scanner
equivalence: one file below `src`, one below `data`, one below `notes`. -/
def c5tree : List Entry :=
  [⟨["src", "a"], true, false, false, 7⟩,
   ⟨["data", "b"], true, false, false, 7⟩,
   ⟨["notes", "c"], true, false, false, 7⟩]

/-! ### Filesystem state and the relocation protocol

`move_large_file` mutates the real filesystem, so the embedding threads an
explicit state: association lists for regular files and for symbolic
links, a directory set, and a clock supplying the creation timestamp a
fresh symlink receives.  The OS-dependent failure modes the script's
`try/except` blocks react to (a `stat`, `shutil.move` or `os.symlink` call
raising) are injected through an environment of failure oracles. -/
structure FileData where
  size : Nat
  content : List Nat
  atime : Nat
  mtime : Nat
deriving DecidableEq, Repr

structure SymlinkData where
  target : FsPath
  atime : Nat
  mtime : Nat
deriving DecidableEq, Repr

structure FS where
  files : List (FsPath × FileData)
  links : List (FsPath × SymlinkData)
  dirs : List FsPath
  clock : Nat
deriving DecidableEq, Repr

/-- Failure oracles standing for the operating system: whether
`shutil.move(src, dst)`, `os.symlink(_, link)` or `path.stat()` raises. -/
structure Env where
  failMove : FsPath → FsPath → Bool
  failSymlink : FsPath → Bool
  failStat : FsPath → Bool

/-- The constructor arguments of `GitHubValidator` (ver2 lines 29-44):
repository root, backup root, and the `auto_move` flag. -/
structure RunConfig where
  repo_dir : FsPath
  backup_dir : FsPath
  auto_move : Bool

def fsLookup {α : Type} : List (FsPath × α) → FsPath → Option α
  | [], _ => none
  | (q, a) :: t, p => if q = p then some a else fsLookup t p

def removeKey {α : Type} : List (FsPath × α) → FsPath → List (FsPath × α)
  | [], _ => []
  | (q, a) :: t, p => if q = p then removeKey t p else (q, a) :: removeKey t p

def setKey {α : Type} (l : List (FsPath × α)) (p : FsPath) (a : α) : List (FsPath × α) :=
  (p, a) :: removeKey l p

/-- `path.stat()`: fails (raises) when the oracle says so or the file does
not exist; otherwise returns the file's metadata. -/
def statRes (env : Env) (fs : FS) (p : FsPath) : Option FileData :=
  if env.failStat p then none else fsLookup fs.files p

/-- `path.relative_to(self.repo_dir)` for a path below the root. -/
def relTo (root p : FsPath) : FsPath := p.drop root.length

/-- `backup_path = self.backup_dir / rel_path` (ver2 line 125). -/
def backupPathOf (cfg : RunConfig) (p : FsPath) : FsPath :=
  cfg.backup_dir ++ relTo cfg.repo_dir p

/-- All ancestors of a path (including itself and the empty root). -/
def pathPrefixes (q : FsPath) : List FsPath :=
  (List.range (q.length + 1)).map (fun k => q.take k)

/-- `backup_path.parent.mkdir(parents=True, exist_ok=True)` (ver2
line 128): records the parent directory and all its ancestors. -/
def mkdirParents (fs : FS) (q : FsPath) : FS :=
  { fs with dirs := fs.dirs ++ pathPrefixes q }

/-- Which call inside `move_large_file` raised.  The Python handler
re-raises the original exception; the constructors record which step it
came from, which is all the information the exception object carries
about the step. -/
inductive MoveFailure where
  | notInRepo
  | statFailed
  | moveFailed
  | symlinkFailed
deriving DecidableEq, Repr

/-- `move_large_file` of `validate_github_limits_ver2.py` (lines 121-150,
identically ver3 lines 99-120): compute the mirrored backup destination,
create intermediate backup directories, capture the source timestamps,
move, create the symlink, and restore the captured timestamps on the
backup file and (without following the link) on the symlink itself.  Any
step failing aborts the sequence at that point; the state returned with
the error is the state the filesystem was left in. -/
def move_large_file (cfg : RunConfig) (env : Env) (fs : FS) (file_path : FsPath) :
    FS × Except MoveFailure IssueMsg :=
  if cfg.repo_dir.isPrefixOf file_path then
    let rel_path := relTo cfg.repo_dir file_path
    let backup_path := cfg.backup_dir ++ rel_path
    let fs₁ := mkdirParents fs backup_path.dropLast
    match statRes env fs₁ file_path with
    | none => (fs₁, .error .statFailed)
    | some d =>
      if env.failMove file_path backup_path then (fs₁, .error .moveFailed)
      else
        let fs₂ := { fs₁ with files := setKey (removeKey fs₁.files file_path) backup_path d }
        if env.failSymlink file_path || (fsLookup fs₂.files file_path).isSome
            || (fsLookup fs₂.links file_path).isSome then
          (fs₂, .error .symlinkFailed)
        else
          let fs₃ := { fs₂ with
            links := setKey fs₂.links file_path ⟨backup_path, fs₂.clock, fs₂.clock⟩ }
          let fs₄ := { fs₃ with
            files := setKey fs₃.files backup_path ⟨d.size, d.content, d.atime, d.mtime⟩ }
          let fs₅ := { fs₄ with
            links := setKey fs₄.links file_path ⟨backup_path, d.atime, d.mtime⟩ }
          (fs₅, .ok (.movedFile rel_path backup_path))
  else (fs, .error .notInRepo)

/-- `_handle_file_size` of ver2 (lines 71-83) inside a running scan: the
violation message is appended before the move is attempted, so it
survives a failing move; a failing move propagates its exception. -/
def handle_file_size_run (cfg : RunConfig) (env : Env) (fs : FS) (p : FsPath)
    (sizeBytes : Nat) : List IssueMsg × FS × Option MoveFailure :=
  let rel := relTo cfg.repo_dir p
  if MAX_GITHUB_FILESIZE_MB < sizeMB sizeBytes then
    if cfg.auto_move then
      match move_large_file cfg env fs p with
      | (fs', .ok msg) => ([.sizeError rel, msg], fs', none)
      | (fs', .error e) => ([.sizeError rel], fs', some e)
    else ([.sizeError rel], fs, none)
  else if MAX_GITHUB_FILESIZE_WARNING_MB < sizeMB sizeBytes then
    ([.sizeWarning rel], fs, none)
  else ([], fs, none)

/-- The `for path in self.repo_dir.rglob('*')` loop body of
`check_file_sizes` (ver2 lines 60-63) under its enclosing
`try/except`: each file is stat'ed and handled; the first exception —
from `stat()` or from a re-raising `move_large_file` — terminates the
loop (the returned flag records that the `except` branch ran and only
logged the error). -/
def processPaths (cfg : RunConfig) (env : Env) : FS → List FsPath →
    List IssueMsg × FS × Bool
  | fs, [] => ([], fs, false)
  | fs, p :: rest =>
    match statRes env fs p with
    | none => ([], fs, true)
    | some d =>
      match handle_file_size_run cfg env fs p d.size with
      | (iss, fs', some _) => (iss, fs', true)
      | (iss, fs', none) =>
        let r := processPaths cfg env fs' rest
        (iss ++ r.1, r.2.1, r.2.2)

/-- The snapshot of regular-file paths the `rglob` traversal visits:
every key of the file table below the repository root (the
`is_file() and not is_symlink()` filter keeps exactly the regular
files). -/
def scanPaths (cfg : RunConfig) (fs : FS) : List FsPath :=
  (fs.files.map Prod.fst).filter (fun p => cfg.repo_dir.isPrefixOf p)

/-- `check_file_sizes` of ver2 (lines 57-65) as a state transformer. -/
def check_file_sizes_run (cfg : RunConfig) (env : Env) (fs : FS) :
    List IssueMsg × FS × Bool :=
  processPaths cfg env fs (scanPaths cfg fs)

/-- The tree snapshot an `rglob` of the repository root reports for a
filesystem state: file, symlink and directory entries with paths relative
to the root.  (Only the symlink flag of a link entry matters to the
checks; links are listed with `isFile := true` as a link to a regular
file would be.) -/
def fsTree (cfg : RunConfig) (fs : FS) : List Entry :=
  (fs.files.filterMap (fun x =>
    if cfg.repo_dir.isPrefixOf x.1 then
      some ⟨relTo cfg.repo_dir x.1, true, false, false, x.2.size⟩
    else none))
  ++ (fs.links.filterMap (fun x =>
    if cfg.repo_dir.isPrefixOf x.1 then
      some ⟨relTo cfg.repo_dir x.1, true, false, true, 0⟩
    else none))
  ++ (fs.dirs.filterMap (fun p =>
    if cfg.repo_dir.isPrefixOf p then
      some ⟨relTo cfg.repo_dir p, false, true, false, 0⟩
    else none))

/-- `check_repo_size` of ver2 (lines 101-118): the summed size of regular
non-symlink files, converted to GB and compared against the repository
thresholds. -/
def check_repo_size_issues (tree : List Entry) : List IssueMsg :=
  let total_gb : ℚ := (repoTotalBytes tree : ℚ) / (1024 * 1024 * 1024)
  if MAX_GITHUB_REPO_SIZE_GB < total_gb then [.repoSizeError]
  else if MAX_GITHUB_REPO_WARNING_GB < total_gb then [.repoSizeWarning]
  else []

/-- `validate` of ver2 (lines 153-162): run the file-size scan, then the
directory-count and repository-size checks, and collect all issues.  The
returned state is the filesystem after any relocations; the flag records
whether the file-size loop was aborted by an exception. -/
def runAudit (cfg : RunConfig) (env : Env) (fs : FS) : List IssueMsg × FS × Bool :=
  let r := check_file_sizes_run cfg env fs
  let tree := fsTree cfg r.2.1
  (r.1 ++ check_dir_file_counts MAX_GITHUB_FILES_PER_DIR tree
      ++ check_repo_size_issues tree,
    r.2.1, r.2.2)

/-- Reading a file's bytes through a path, following one level of
symbolic link — `open(path).read()` semantics in this model. -/
def readThrough (fs : FS) (p : FsPath) : Option (List Nat) :=
  match fsLookup fs.files p with
  | some d => some d.content
  | none =>
    match fsLookup fs.links p with
    | some l => (fsLookup fs.files l.target).map (fun d => d.content)
    | none => none

/-- `os.stat(path)` access/modify times, following a symbolic link. -/
def statTimes (fs : FS) (p : FsPath) : Option (Nat × Nat) :=
  match fsLookup fs.files p with
  | some d => some (d.atime, d.mtime)
  | none =>
    match fsLookup fs.links p with
    | some l => (fsLookup fs.files l.target).map (fun d => (d.atime, d.mtime))
    | none => none

/-- `os.lstat(path)` access/modify times: the link object's own times. -/
def lstatTimes (fs : FS) (p : FsPath) : Option (Nat × Nat) :=
  match fsLookup fs.links p with
  | some l => some (l.atime, l.mtime)
  | none => (fsLookup fs.files p).map (fun d => (d.atime, d.mtime))

def c67cfg : RunConfig := ⟨["repo"], ["bak"], true⟩

def c67env : Env := ⟨fun _ _ => false, fun _ => false, fun _ => false⟩

def c67fs : FS := ⟨[(["repo", "sub", "big"], ⟨150, [9, 9], 5, 6⟩)], [], [], 77⟩

/-! ### Claim C2 — behaviour of a failing relocation -/
def c2cfg : RunConfig := ⟨["repo"], ["bak"], true⟩

/-- Environment in which moving `repo/f1` fails and everything else
succeeds. -/
def c2env : Env :=
  ⟨fun src _ => decide (src = ["repo", "f1"]), fun _ => false, fun _ => false⟩

/-- Two oversized files: 200 MB `repo/f1` and 150 MB `repo/f2`. -/
def c2fs : FS :=
  ⟨[(["repo", "f1"], ⟨209715200, [1], 11, 12⟩),
    (["repo", "f2"], ⟨157286400, [2], 21, 22⟩)], [], [], 0⟩

/-- Environment in which creating the symlink for `repo/f1` fails. -/
def c2envLink : Env :=
  ⟨fun _ _ => false, fun link => decide (link = ["repo", "f1"]), fun _ => false⟩

/-! ### Claim C4 — unreadable entries during the scan -/
def c4cfg : RunConfig := ⟨["repo"], ["bak"], false⟩

/-- Environment in which `stat` on `repo/b` raises a permission error. -/
def c4env : Env :=
  ⟨fun _ _ => false, fun _ => false, fun p => decide (p = ["repo", "b"])⟩

/-- Three warning-sized (60 MB) files. -/
def c4fs : FS :=
  ⟨[(["repo", "a"], ⟨62914560, [1], 1, 1⟩),
    (["repo", "b"], ⟨62914560, [2], 2, 2⟩),
    (["repo", "c"], ⟨62914560, [3], 3, 3⟩)], [], [], 0⟩

def c10cfg : RunConfig := ⟨["repo"], ["bak"], false⟩

def c10env : Env := ⟨fun _ _ => false, fun _ => false, fun _ => false⟩

def c10fs : FS := ⟨[(["repo", "x"], ⟨209715200, [4], 1, 2⟩)], [], [["repo"]], 3⟩

theorem sizeMB_gt_100_iff (s : Nat) :
    MAX_GITHUB_FILESIZE_MB < sizeMB s ↔ maxFileSizeBytes < s := by
  unfold MAX_GITHUB_FILESIZE_MB sizeMB maxFileSizeBytes
  rw [lt_div_iff₀ (by norm_num : (0:ℚ) < 1024 * 1024)]
  constructor
  · intro h
    have h' : ((100 * 1024 * 1024 : Nat) : ℚ) < (s : ℚ) := by push_cast; linarith
    exact_mod_cast h'
  · intro h
    have h' : ((100 * 1024 * 1024 : Nat) : ℚ) < (s : ℚ) := by exact_mod_cast h
    push_cast at h'
    linarith

theorem sizeMB_gt_50_iff (s : Nat) :
    MAX_GITHUB_FILESIZE_WARNING_MB < sizeMB s ↔ warnFileSizeBytes < s := by
  unfold MAX_GITHUB_FILESIZE_WARNING_MB sizeMB warnFileSizeBytes
  rw [lt_div_iff₀ (by norm_num : (0:ℚ) < 1024 * 1024)]
  constructor
  · intro h
    have h' : ((50 * 1024 * 1024 : Nat) : ℚ) < (s : ℚ) := by push_cast; linarith
    exact_mod_cast h'
  · intro h
    have h' : ((50 * 1024 * 1024 : Nat) : ℚ) < (s : ℚ) := by exact_mod_cast h
    push_cast at h'
    linarith

theorem classifyFileSize_ver2_eq_default (s : Nat) :
    classifyFileSize_ver2 s = classifyFileSize defaultLimits s := rfl

/-! ### Claim C1 — per-file size trichotomy -/
/-- C1 counterexample: the claim asserts `s == maxFileSizeBytes` is a
`SizeViolation`, but both revisions compare with a strict `>`
(`size_mb > MAX_GITHub..` is false at exactly 100 MB), so a file of
exactly `maxFileSizeBytes` bytes is classified `SizeWarning`, not
`SizeViolation`. -/
theorem C1_max_boundary_cex :
    classifyFileSize_ver2 maxFileSizeBytes = .SizeWarning ∧
    classifyFileSize_ver2 maxFileSizeBytes ≠ .SizeViolation := by
  have h : classifyFileSize_ver2 maxFileSizeBytes = .SizeWarning := by
    norm_num [classifyFileSize_ver2, sizeMB, maxFileSizeBytes,
      MAX_GITHUB_FILESIZE_MB, MAX_GITHUB_FILESIZE_WARNING_MB]
  exact ⟨h, by rw [h]; decide⟩

/-- C1 amended: classification is the trichotomy
`s > maxFileSizeBytes ⇒ SizeViolation`,
`warnFileSizeBytes < s ≤ maxFileSizeBytes ⇒ SizeWarning`,
`s ≤ warnFileSizeBytes ⇒ Normal`; at the boundaries `s == maxFileSizeBytes`
is a warning (not a violation — both thresholds are strict) and
`s == warnFileSizeBytes` is normal, and a file over max is never also
reported as a warning. -/
theorem C1_size_trichotomy_amended (s : Nat) :
    (classifyFileSize_ver2 s = .SizeViolation ↔ maxFileSizeBytes < s) ∧
    (classifyFileSize_ver2 s = .SizeWarning ↔
      warnFileSizeBytes < s ∧ s ≤ maxFileSizeBytes) ∧
    (classifyFileSize_ver2 s = .Normal ↔ s ≤ warnFileSizeBytes) := by
  have hmw : warnFileSizeBytes < maxFileSizeBytes := by
    norm_num [warnFileSizeBytes, maxFileSizeBytes]
  unfold classifyFileSize_ver2
  rcases lt_or_le maxFileSizeBytes s with hmax | hmax
  · rw [if_pos ((sizeMB_gt_100_iff s).mpr hmax)]
    exact ⟨⟨fun _ => hmax, fun _ => rfl⟩,
      ⟨fun h => by simp at h, fun h => absurd h.2 (not_le.mpr hmax)⟩,
      ⟨fun h => by simp at h, fun h => absurd h (by omega)⟩⟩
  · rw [if_neg (fun h => absurd ((sizeMB_gt_100_iff s).mp h) (not_lt.mpr hmax))]
    rcases lt_or_le warnFileSizeBytes s with hwarn | hwarn
    · rw [if_pos ((sizeMB_gt_50_iff s).mpr hwarn)]
      exact ⟨⟨fun h => by simp at h, fun h => absurd h (not_lt.mpr hmax)⟩,
        ⟨fun _ => ⟨hwarn, hmax⟩, fun _ => rfl⟩,
        ⟨fun h => by simp at h, fun h => absurd h (not_le.mpr hwarn)⟩⟩
    · rw [if_neg (fun h => absurd ((sizeMB_gt_50_iff s).mp h) (not_lt.mpr hwarn))]
      exact ⟨⟨fun h => by simp at h, fun h => absurd h (not_lt.mpr hmax)⟩,
        ⟨fun h => by simp at h, fun h => absurd h.1 (not_lt.mpr hwarn)⟩,
        ⟨fun _ => hwarn, fun _ => rfl⟩⟩

/-! ### Claim C3 — policy construction validation -/
/-- C3 counterexample: the claim asserts construction fails with
`InvalidPolicy` whenever a warn threshold exceeds its max or a value is
non-positive, but the `GitHubLimits` dataclass validates nothing: a policy
with `WARNING_FILESIZE_MB = 200 > 100 = MAX_FILESIZE_MB` and one with all
thresholds zero or negative are both constructed successfully. -/
theorem C3_no_validation_cex :
    mkGitHubLimits 100 200 1000 100 5 1 =
      .ok ⟨100, 200, 1000, 100, 5, 1⟩ ∧
    mkGitHubLimits 0 (-1) 0 0 0 0 =
      .ok ⟨0, -1, 0, 0, 0, 0⟩ := ⟨rfl, rfl⟩

/-- C3 amended: construction of a `GitHubLimits` policy never fails — the
dataclass performs no validation of its invariants, so every combination
of values (including `warn > max` and non-positive thresholds) yields a
policy and no `InvalidPolicy` error exists in the code. -/
theorem C3_construction_total_amended (maxFileMB warnFileMB : ℚ) (maxPerDir : Nat)
    (maxRepoGB warnRepoGB recRepoGB : ℚ) :
    mkGitHubLimits maxFileMB warnFileMB maxPerDir maxRepoGB warnRepoGB recRepoGB =
      .ok ⟨maxFileMB, warnFileMB, maxPerDir, maxRepoGB, warnRepoGB, recRepoGB⟩ := rfl

/-! ### Claim C9 — directory child-count warnings -/
/-- C9: for every directory, a `DirectoryCountWarning` (the
`dirCountWarning` issue) is produced exactly when the count of its
immediate, non-recursive children strictly exceeds the per-directory
limit; in particular a directory with exactly `maxPerDir` children
produces no warning. -/
theorem C9_dir_count_warning (maxPerDir : Nat) (tree : List Entry) (d : Entry)
    (hd : d ∈ tree) (hdir : d.isDir = true) :
    IssueMsg.dirCountWarning d.path (immediateChildCount tree d.path) ∈
        check_dir_file_counts maxPerDir tree ↔
      maxPerDir < immediateChildCount tree d.path := by
  unfold check_dir_file_counts
  constructor
  · intro h
    rcases List.mem_filterMap.mp h with ⟨d', _, hsome⟩
    by_cases hc : maxPerDir < immediateChildCount tree d'.path
    · rw [if_pos hc] at hsome
      injection hsome with h1
      injection h1 with hpath hcount
      exact hcount ▸ hc
    · rw [if_neg hc] at hsome
      cases hsome
  · intro h
    refine List.mem_filterMap.mpr ⟨d, List.mem_filter.mpr ⟨hd, hdir⟩, ?_⟩
    rw [if_pos h]

/-- C9 witness: a directory with three immediate children against a limit
of 2 is warned about; instantiating the theorem at this tree makes the
warning's presence equivalent to `2 < 3`. -/
theorem C9_dir_count_warning_witness :
    IssueMsg.dirCountWarning ["d"] (immediateChildCount c9tree ["d"]) ∈
        check_dir_file_counts 2 c9tree ↔
      2 < immediateChildCount c9tree ["d"] :=
  C9_dir_count_warning 2 c9tree ⟨["d"], false, true, false, 0⟩ (by decide) rfl

/-! ### Claim C8 — symbolic links are never measured -/
/-- C8: symbolic links are excluded from size accounting.  Inserting a
symlink entry anywhere in the tree changes neither the per-file size
classification pass nor the whole-tree byte total, so a symlink left at a
relocated file's original path contributes to neither. -/
theorem C8_symlinks_not_measured (pre post : List Entry) (e : Entry)
    (h : e.isSymlink = true) :
    check_file_sizes_ver2 (pre ++ e :: post) = check_file_sizes_ver2 (pre ++ post) ∧
    repoTotalBytes (pre ++ e :: post) = repoTotalBytes (pre ++ post) := by
  have hs : scannedB e = false := by
    unfold scannedB
    rw [h]
    exact Bool.and_false _
  unfold check_file_sizes_ver2 repoTotalBytes
  rw [List.filter_append, List.filter_append, List.filter_cons_of_neg (by simp [hs])]
  exact ⟨rfl, rfl⟩

/-- C8 witness: inserting a 200 MB symlink between two small files leaves
both the classification list and the 30-byte total unchanged. -/
theorem C8_symlinks_not_measured_witness :
    check_file_sizes_ver2
        ([⟨["a"], true, false, false, 10⟩] ++
          ⟨["link"], true, false, true, 209715200⟩ ::
          [⟨["b"], true, false, false, 20⟩]) =
      check_file_sizes_ver2
        ([⟨["a"], true, false, false, 10⟩] ++ [⟨["b"], true, false, false, 20⟩]) ∧
    repoTotalBytes
        ([⟨["a"], true, false, false, 10⟩] ++
          ⟨["link"], true, false, true, 209715200⟩ ::
          [⟨["b"], true, false, false, 20⟩]) =
      repoTotalBytes
        ([⟨["a"], true, false, false, 10⟩] ++ [⟨["b"], true, false, false, 20⟩]) :=
  C8_symlinks_not_measured _ _ _ rfl

/-! ### Claim C5 — the two revisions as scanners -/
/-- Partition permutation: filtering a list by three mutually exclusive
predicates that jointly cover a fourth yields, concatenated, a
permutation of the single filter.  Used to relate ver3's three scanning
passes to ver2's single pass. -/
theorem filter_partition_perm {α : Type} (l : List α) (p q r s : α → Bool)
    (hcover : ∀ x ∈ l, s x = (p x || q x || r x))
    (hpq : ∀ x ∈ l, ¬(p x = true ∧ q x = true))
    (hpr : ∀ x ∈ l, ¬(p x = true ∧ r x = true))
    (hqr : ∀ x ∈ l, ¬(q x = true ∧ r x = true)) :
    List.Perm (l.filter p ++ l.filter q ++ l.filter r) (l.filter s) := by
  induction l with
  | nil => simp
  | cons a t ih =>
    have ih' := ih (fun x hx => hcover x (List.mem_cons_of_mem a hx))
      (fun x hx => hpq x (List.mem_cons_of_mem a hx))
      (fun x hx => hpr x (List.mem_cons_of_mem a hx))
      (fun x hx => hqr x (List.mem_cons_of_mem a hx))
    have hs := hcover a (List.mem_cons_self a t)
    cases hp : p a with
    | true =>
      have hq : q a = false := by
        cases hq : q a
        · rfl
        · exact absurd ⟨hp, hq⟩ (hpq a (List.mem_cons_self a t))
      have hr : r a = false := by
        cases hr : r a
        · rfl
        · exact absurd ⟨hp, hr⟩ (hpr a (List.mem_cons_self a t))
      have hsa : s a = true := by simp [hs, hp, hq, hr]
      rw [List.filter_cons_of_pos (by rw [hp]),
          List.filter_cons_of_neg (by simp [hq]),
          List.filter_cons_of_neg (by simp [hr]),
          List.filter_cons_of_pos (by rw [hsa])]
      exact ih'.cons a
    | false =>
      cases hq : q a with
      | true =>
        have hr : r a = false := by
          cases hr : r a
          · rfl
          · exact absurd ⟨hq, hr⟩ (hqr a (List.mem_cons_self a t))
        have hsa : s a = true := by simp [hs, hp, hq, hr]
        rw [List.filter_cons_of_neg (by simp [hp]),
            List.filter_cons_of_pos (by rw [hq]),
            List.filter_cons_of_neg (by simp [hr]),
            List.filter_cons_of_pos (by rw [hsa])]
        exact (List.perm_middle.append_right (t.filter r)).trans (ih'.cons a)
      | false =>
        cases hr : r a with
        | true =>
          have hsa : s a = true := by simp [hs, hp, hq, hr]
          rw [List.filter_cons_of_neg (by simp [hp]),
              List.filter_cons_of_neg (by simp [hq]),
              List.filter_cons_of_pos (by rw [hr]),
              List.filter_cons_of_pos (by rw [hsa])]
          exact List.perm_middle.trans (ih'.cons a)
        | false =>
          have hsa : s a = false := by simp [hs, hp, hq, hr]
          rw [List.filter_cons_of_neg (by simp [hp]),
              List.filter_cons_of_neg (by simp [hq]),
              List.filter_cons_of_neg (by simp [hr]),
              List.filter_cons_of_neg (by simp [hsa])]
          exact ih'

/-- An element of a duplicate-free list is counted exactly once,
for any lawful boolean equality. -/
theorem count_eq_one_of_nodup_mem {α : Type} [BEq α] [LawfulBEq α] {l : List α} {a : α}
    (h : l.Nodup) (ha : a ∈ l) : l.count a = 1 := by
  induction l with
  | nil => cases ha
  | cons b t ih =>
    rcases List.mem_cons.mp ha with rfl | hat
    · rw [List.count_cons_self,
        List.count_eq_zero.mpr (List.nodup_cons.mp h).1]
    · have hab : a ≠ b := fun hab => (List.nodup_cons.mp h).1 (hab ▸ hat)
      rw [List.count_cons_of_ne hab]
      exact ih (List.nodup_cons.mp h).2 hat

/-- Permutations preserve counts, for any boolean equality. -/
theorem perm_count_eq {α : Type} [BEq α] {l₁ l₂ : List α} (h : List.Perm l₁ l₂) (a : α) :
    l₁.count a = l₂.count a := by
  unfold List.count
  exact h.countP_eq _

/-- C5 counterexample: the two revisions are not semantically equivalent.
On a tree whose only file lives under the top-level directory `src2`, ver2
classifies the 200 MB file as a `SizeViolation`, while ver3 never
classifies it at all: `src2` is not a critical directory, so the file is
missing from the critical passes, yet the rendered path `src2/big` has the
critical directory string `src` as a prefix, so the second pass skips it
too. -/
theorem C5_sibling_dir_cex :
    check_file_sizes_ver3 defaultLimits [⟨["src2", "big"], true, false, false, 209715200⟩] = [] ∧
    check_file_sizes_ver2 [⟨["src2", "big"], true, false, false, 209715200⟩] =
      [(["src2", "big"], .SizeViolation)] := by
  have hclass : classifyFileSize_ver2 209715200 = .SizeViolation := by
    norm_num [classifyFileSize_ver2, sizeMB, MAX_GITHUB_FILESIZE_MB]
  constructor
  · decide
  · simp [check_file_sizes_ver2, scannedB, hclass]

/-- C5 amended: the critical-subdirectory prioritization of ver3 is a pure
reporting-order change only on trees free of string-prefix collisions:
when every scanned entry whose rendered path extends a critical directory
name actually lies strictly below that critical directory, the two
revisions classify the same multiset of `(path, classification)` pairs and
every regular, non-symlink file is classified exactly once by each
revision.  (In general ver3 silently skips files under sibling directories
such as `src2`, so equivalence fails.) -/
theorem C5_scanner_equivalence_amended (tree : List Entry)
    (hdistinct : tree.Pairwise (fun a b => a.path ≠ b.path))
    (hnocollide : ∀ e ∈ tree, scannedB e = true →
      startsWithCritical e = (ver3pass1 "src" e || ver3pass1 "data" e)) :
    List.Perm (check_file_sizes_ver3 defaultLimits tree) (check_file_sizes_ver2 tree) ∧
    ∀ e ∈ tree, scannedB e = true →
      (check_file_sizes_ver2 tree).count (e.path, classifyFileSize_ver2 e.sizeBytes) = 1 ∧
      (check_file_sizes_ver3 defaultLimits tree).count
          (e.path, classifyFileSize_ver2 e.sizeBytes) = 1 := by
  have hcover : ∀ x ∈ tree, scannedB x =
      (ver3pass1 "src" x || ver3pass1 "data" x || ver3pass2 x) := by
    intro x hx
    cases hsx : scannedB x with
    | false => simp [ver3pass1, ver3pass2, hsx]
    | true =>
      have hc := hnocollide x hx hsx
      have h2 : ver3pass2 x = !(ver3pass1 "src" x || ver3pass1 "data" x) := by
        unfold ver3pass2
        rw [hsx, hc]
        simp
      rw [h2]
      cases ver3pass1 "src" x <;> cases ver3pass1 "data" x <;> simp
  have hpq : ∀ x ∈ tree, ¬(ver3pass1 "src" x = true ∧ ver3pass1 "data" x = true) := by
    intro x _ ⟨h1, h2⟩
    simp only [ver3pass1, Bool.and_eq_true, beq_iff_eq] at h1 h2
    exact absurd (h1.1.2.symm.trans h2.1.2) (by decide)
  have hpr : ∀ x ∈ tree, ¬(ver3pass1 "src" x = true ∧ ver3pass2 x = true) := by
    intro x hx ⟨h1, h2⟩
    have hsx : scannedB x = true := by
      simp only [ver3pass1, Bool.and_eq_true] at h1
      exact h1.1.1
    have hc := hnocollide x hx hsx
    simp only [ver3pass2, Bool.and_eq_true, Bool.not_eq_true'] at h2
    rw [hc, h1] at h2
    simp at h2
  have hqr : ∀ x ∈ tree, ¬(ver3pass1 "data" x = true ∧ ver3pass2 x = true) := by
    intro x hx ⟨h1, h2⟩
    have hsx : scannedB x = true := by
      simp only [ver3pass1, Bool.and_eq_true] at h1
      exact h1.1.1
    have hc := hnocollide x hx hsx
    simp only [ver3pass2, Bool.and_eq_true, Bool.not_eq_true'] at h2
    rw [hc, h1] at h2
    simp at h2
  have hperm : List.Perm (check_file_sizes_ver3 defaultLimits tree)
      (check_file_sizes_ver2 tree) := by
    unfold check_file_sizes_ver3 check_file_sizes_ver2 critical_dirs
    simp only [List.map_cons, List.map_nil, List.flatten_cons, List.flatten_nil,
      List.append_nil]
    rw [← List.map_append, ← List.map_append]
    exact (filter_partition_perm tree (ver3pass1 "src") (ver3pass1 "data")
      ver3pass2 scannedB hcover hpq hpr hqr).map _
  refine ⟨hperm, fun e he hse => ?_⟩
  have hnodup : (check_file_sizes_ver2 tree).Nodup := by
    unfold check_file_sizes_ver2
    exact List.Pairwise.map _ (fun a b hab heq => hab (congrArg Prod.fst heq))
      (hdistinct.filter scannedB)
  have hmem : (e.path, classifyFileSize_ver2 e.sizeBytes) ∈ check_file_sizes_ver2 tree :=
    List.mem_map.mpr ⟨e, List.mem_filter.mpr ⟨he, hse⟩, rfl⟩
  have hcount2 := count_eq_one_of_nodup_mem hnodup hmem
  exact ⟨hcount2, (perm_count_eq hperm _).trans hcount2⟩

/-- C5 witness: the amended equivalence instantiated at a concrete
collision-free tree. -/
theorem C5_scanner_equivalence_witness :
    List.Perm (check_file_sizes_ver3 defaultLimits c5tree) (check_file_sizes_ver2 c5tree) ∧
    ∀ e ∈ c5tree, scannedB e = true →
      (check_file_sizes_ver2 c5tree).count (e.path, classifyFileSize_ver2 e.sizeBytes) = 1 ∧
      (check_file_sizes_ver3 defaultLimits c5tree).count
          (e.path, classifyFileSize_ver2 e.sizeBytes) = 1 :=
  C5_scanner_equivalence_amended c5tree (by decide) (by decide)

/-! ### Association-list lemmas -/
theorem fsLookup_cons {α : Type} (q : FsPath) (a : α) (t : List (FsPath × α)) (p : FsPath) :
    fsLookup ((q, a) :: t) p = if q = p then some a else fsLookup t p := rfl

theorem removeKey_cons {α : Type} (q : FsPath) (a : α) (t : List (FsPath × α)) (p : FsPath) :
    removeKey ((q, a) :: t) p =
      if q = p then removeKey t p else (q, a) :: removeKey t p := rfl

theorem fsLookup_removeKey_self {α : Type} (l : List (FsPath × α)) (p : FsPath) :
    fsLookup (removeKey l p) p = none := by
  induction l with
  | nil => rfl
  | cons x t ih =>
    obtain ⟨q, a⟩ := x
    rw [removeKey_cons]
    by_cases h : q = p
    · rw [if_pos h]
      exact ih
    · rw [if_neg h, fsLookup_cons, if_neg h]
      exact ih

theorem fsLookup_removeKey_ne {α : Type} (l : List (FsPath × α)) {p q : FsPath}
    (h : q ≠ p) : fsLookup (removeKey l q) p = fsLookup l p := by
  induction l with
  | nil => rfl
  | cons x t ih =>
    obtain ⟨x1, a⟩ := x
    rw [removeKey_cons, fsLookup_cons]
    by_cases hx : x1 = q
    · rw [if_pos hx, if_neg (by rw [hx]; exact h)]
      exact ih
    · rw [if_neg hx, fsLookup_cons]
      by_cases hxp : x1 = p
      · rw [if_pos hxp, if_pos hxp]
      · rw [if_neg hxp, if_neg hxp]
        exact ih

theorem fsLookup_setKey_self {α : Type} (l : List (FsPath × α)) (p : FsPath) (a : α) :
    fsLookup (setKey l p a) p = some a := by
  unfold setKey
  rw [fsLookup_cons, if_pos rfl]

theorem fsLookup_setKey_ne {α : Type} (l : List (FsPath × α)) {p q : FsPath}
    (h : q ≠ p) (a : α) : fsLookup (setKey l q a) p = fsLookup l p := by
  unfold setKey
  rw [fsLookup_cons, if_neg h]
  exact fsLookup_removeKey_ne l h

theorem statRes_eq_some {env : Env} {fs : FS} {p : FsPath} {d : FileData}
    (h : statRes env fs p = some d) : fsLookup fs.files p = some d := by
  unfold statRes at h
  by_cases hf : env.failStat p
  · rw [if_pos hf] at h
    cases h
  · rwa [if_neg hf] at h

/-- The result of a fully successful `move_large_file`, spelled out: the
file's table entry moves to the mirrored backup path carrying its
captured timestamps, a symlink to the backup (first created with the
clock's time, then re-stamped with the captured times) sits at the
original path, and all ancestors of the backup parent have been
created. -/
theorem move_large_file_success (cfg : RunConfig) (env : Env) (fs : FS)
    (p : FsPath) (d : FileData)
    (hpre : cfg.repo_dir.isPrefixOf p = true)
    (hstat : statRes env fs p = some d)
    (hmv : env.failMove p (backupPathOf cfg p) = false)
    (hln : env.failSymlink p = false)
    (hneq : backupPathOf cfg p ≠ p)
    (hnolink : fsLookup fs.links p = none) :
    move_large_file cfg env fs p =
      ({ files := setKey (setKey (removeKey fs.files p) (backupPathOf cfg p) d)
            (backupPathOf cfg p) ⟨d.size, d.content, d.atime, d.mtime⟩,
         links := setKey (setKey fs.links p
              ⟨backupPathOf cfg p, fs.clock, fs.clock⟩) p
            ⟨backupPathOf cfg p, d.atime, d.mtime⟩,
         dirs := fs.dirs ++ pathPrefixes (backupPathOf cfg p).dropLast,
         clock := fs.clock },
       .ok (.movedFile (relTo cfg.repo_dir p) (backupPathOf cfg p))) := by
  have hstat1 : statRes env (mkdirParents fs (backupPathOf cfg p).dropLast) p = some d :=
    hstat
  have hfile2 : fsLookup (setKey (removeKey fs.files p) (backupPathOf cfg p) d) p = none := by
    rw [fsLookup_setKey_ne _ hneq, fsLookup_removeKey_self]
  unfold move_large_file
  rw [if_pos hpre]
  show (match statRes env (mkdirParents fs _) p with
    | none => _
    | some d => _) = _
  rw [show (backupPathOf cfg p) = cfg.backup_dir ++ relTo cfg.repo_dir p from rfl] at hstat1
  rw [hstat1]
  show (if env.failMove p (cfg.backup_dir ++ relTo cfg.repo_dir p) then _ else _) = _
  rw [show cfg.backup_dir ++ relTo cfg.repo_dir p = backupPathOf cfg p from rfl, hmv]
  simp only [Bool.false_eq_true, if_false, mkdirParents]
  rw [show (if env.failSymlink p ||
        (fsLookup (setKey (removeKey fs.files p) (backupPathOf cfg p) d) p).isSome ||
        (fsLookup fs.links p).isSome then _ else _) = _ from rfl]
  rw [hln, hfile2, hnolink]
  simp only [Option.isSome_none, Bool.or_self, Bool.false_eq_true, if_false]

/-! ### Claim C6 — the relocation protocol on success -/
/-- C6: for every successful relocation, the backup destination mirrors
the file's root-relative path onto the backup root; the intermediate
backup directories exist afterwards; the timestamps captured before the
move end up restored both on the backup file and — independently, without
following the link — on the symlink object left at the original path. -/
theorem C6_relocation_success_protocol (cfg : RunConfig) (env : Env) (fs : FS)
    (p : FsPath) (d : FileData)
    (hpre : cfg.repo_dir.isPrefixOf p = true)
    (hstat : statRes env fs p = some d)
    (hmv : env.failMove p (backupPathOf cfg p) = false)
    (hln : env.failSymlink p = false)
    (hneq : backupPathOf cfg p ≠ p)
    (hnolink : fsLookup fs.links p = none) :
    (move_large_file cfg env fs p).2 =
        .ok (.movedFile (relTo cfg.repo_dir p) (backupPathOf cfg p)) ∧
    fsLookup (move_large_file cfg env fs p).1.files (backupPathOf cfg p) =
        some ⟨d.size, d.content, d.atime, d.mtime⟩ ∧
    fsLookup (move_large_file cfg env fs p).1.links p =
        some ⟨backupPathOf cfg p, d.atime, d.mtime⟩ ∧
    (∀ q ∈ pathPrefixes (backupPathOf cfg p).dropLast,
      q ∈ (move_large_file cfg env fs p).1.dirs) := by
  rw [move_large_file_success cfg env fs p d hpre hstat hmv hln hneq hnolink]
  refine ⟨rfl, fsLookup_setKey_self _ _ _, fsLookup_setKey_self _ _ _, ?_⟩
  intro q hq
  exact List.mem_append_right _ hq

/-- C6 witness: relocating `repo/sub/big` into the backup root `bak`
lands it at `bak/sub/big` with the original timestamps on both the backup
file and the symlink, and creates the backup directories. -/
theorem C6_relocation_success_witness :
    (move_large_file c67cfg c67env c67fs ["repo", "sub", "big"]).2 =
        .ok (.movedFile (relTo c67cfg.repo_dir ["repo", "sub", "big"])
          (backupPathOf c67cfg ["repo", "sub", "big"])) ∧
    fsLookup (move_large_file c67cfg c67env c67fs ["repo", "sub", "big"]).1.files
        (backupPathOf c67cfg ["repo", "sub", "big"]) = some ⟨150, [9, 9], 5, 6⟩ ∧
    fsLookup (move_large_file c67cfg c67env c67fs ["repo", "sub", "big"]).1.links
        ["repo", "sub", "big"] =
      some ⟨backupPathOf c67cfg ["repo", "sub", "big"], 5, 6⟩ ∧
    (∀ q ∈ pathPrefixes (backupPathOf c67cfg ["repo", "sub", "big"]).dropLast,
      q ∈ (move_large_file c67cfg c67env c67fs ["repo", "sub", "big"]).1.dirs) :=
  C6_relocation_success_protocol c67cfg c67env c67fs ["repo", "sub", "big"]
    ⟨150, [9, 9], 5, 6⟩ (by decide) rfl rfl rfl (by decide) rfl

/-! ### Claim C7 — relocation round-trip -/
/-- C7: after a successful relocation, reading through the original path
returns the pre-relocation content, and the access/modify timestamps
observed (following links) at the original path and at the backup path —
as well as the link object's own times — all equal the pre-relocation
timestamps. -/
theorem C7_relocation_roundtrip (cfg : RunConfig) (env : Env) (fs : FS)
    (p : FsPath) (d : FileData)
    (hpre : cfg.repo_dir.isPrefixOf p = true)
    (hstat : statRes env fs p = some d)
    (hmv : env.failMove p (backupPathOf cfg p) = false)
    (hln : env.failSymlink p = false)
    (hneq : backupPathOf cfg p ≠ p)
    (hnolink : fsLookup fs.links p = none) :
    readThrough fs p = some d.content ∧
    readThrough (move_large_file cfg env fs p).1 p = some d.content ∧
    statTimes (move_large_file cfg env fs p).1 p = some (d.atime, d.mtime) ∧
    statTimes (move_large_file cfg env fs p).1 (backupPathOf cfg p) =
        some (d.atime, d.mtime) ∧
    lstatTimes (move_large_file cfg env fs p).1 p = some (d.atime, d.mtime) := by
  have hfp : fsLookup fs.files p = some d := statRes_eq_some hstat
  rw [move_large_file_success cfg env fs p d hpre hstat hmv hln hneq hnolink]
  have hfilesP : fsLookup (setKey (setKey (removeKey fs.files p) (backupPathOf cfg p) d)
      (backupPathOf cfg p) ⟨d.size, d.content, d.atime, d.mtime⟩) p = none := by
    rw [fsLookup_setKey_ne _ hneq, fsLookup_setKey_ne _ hneq, fsLookup_removeKey_self]
  have hfilesBp : fsLookup (setKey (setKey (removeKey fs.files p) (backupPathOf cfg p) d)
      (backupPathOf cfg p) ⟨d.size, d.content, d.atime, d.mtime⟩) (backupPathOf cfg p) =
      some ⟨d.size, d.content, d.atime, d.mtime⟩ := fsLookup_setKey_self _ _ _
  have hlinksP : fsLookup (setKey (setKey fs.links p
        ⟨backupPathOf cfg p, fs.clock, fs.clock⟩) p
      ⟨backupPathOf cfg p, d.atime, d.mtime⟩) p =
      some ⟨backupPathOf cfg p, d.atime, d.mtime⟩ := fsLookup_setKey_self _ _ _
  refine ⟨by simp [readThrough, hfp], ?_, ?_, ?_, ?_⟩
  · simp [readThrough, hfilesP, hlinksP, hfilesBp]
  · simp [statTimes, hfilesP, hlinksP, hfilesBp]
  · simp [statTimes, hfilesBp]
  · simp [lstatTimes, hlinksP]

/-- C7 witness: the round-trip instantiated at the concrete relocation of
`repo/sub/big`. -/
theorem C7_relocation_roundtrip_witness :
    readThrough c67fs ["repo", "sub", "big"] = some [9, 9] ∧
    readThrough (move_large_file c67cfg c67env c67fs ["repo", "sub", "big"]).1
        ["repo", "sub", "big"] = some [9, 9] ∧
    statTimes (move_large_file c67cfg c67env c67fs ["repo", "sub", "big"]).1
        ["repo", "sub", "big"] = some (5, 6) ∧
    statTimes (move_large_file c67cfg c67env c67fs ["repo", "sub", "big"]).1
        (backupPathOf c67cfg ["repo", "sub", "big"]) = some (5, 6) ∧
    lstatTimes (move_large_file c67cfg c67env c67fs ["repo", "sub", "big"]).1
        ["repo", "sub", "big"] = some (5, 6) :=
  C7_relocation_roundtrip c67cfg c67env c67fs ["repo", "sub", "big"]
    ⟨150, [9, 9], 5, 6⟩ (by decide) rfl rfl rfl (by decide) rfl

/-! ### Failure paths of the relocation and the scan loop -/
/-- A `shutil.move` failure aborts `move_large_file` with the tree
untouched except for the already-created backup directories. -/
theorem move_large_file_moveFailed (cfg : RunConfig) (env : Env) (fs : FS)
    (p : FsPath) (d : FileData)
    (hpre : cfg.repo_dir.isPrefixOf p = true)
    (hstat : statRes env fs p = some d)
    (hmv : env.failMove p (backupPathOf cfg p) = true) :
    move_large_file cfg env fs p =
      (mkdirParents fs (backupPathOf cfg p).dropLast, .error .moveFailed) := by
  have hstat1 : statRes env (mkdirParents fs (backupPathOf cfg p).dropLast) p = some d :=
    hstat
  unfold move_large_file
  rw [if_pos hpre]
  show (match statRes env (mkdirParents fs _) p with
    | none => _
    | some d => _) = _
  rw [show (backupPathOf cfg p) = cfg.backup_dir ++ relTo cfg.repo_dir p from rfl] at hstat1
  rw [hstat1]
  show (if env.failMove p (cfg.backup_dir ++ relTo cfg.repo_dir p) then _ else _) = _
  rw [show cfg.backup_dir ++ relTo cfg.repo_dir p = backupPathOf cfg p from rfl, hmv]
  simp only [if_true]

/-- An `os.symlink` failure aborts `move_large_file` after the move: the
state returned with the error already has the file at the backup path and
no longer at the original path. -/
theorem move_large_file_symlinkFailed (cfg : RunConfig) (env : Env) (fs : FS)
    (p : FsPath) (d : FileData)
    (hpre : cfg.repo_dir.isPrefixOf p = true)
    (hstat : statRes env fs p = some d)
    (hmv : env.failMove p (backupPathOf cfg p) = false)
    (hln : env.failSymlink p = true) :
    move_large_file cfg env fs p =
      ({ files := setKey (removeKey fs.files p) (backupPathOf cfg p) d,
         links := fs.links,
         dirs := fs.dirs ++ pathPrefixes (backupPathOf cfg p).dropLast,
         clock := fs.clock }, .error .symlinkFailed) := by
  have hstat1 : statRes env (mkdirParents fs (backupPathOf cfg p).dropLast) p = some d :=
    hstat
  unfold move_large_file
  rw [if_pos hpre]
  show (match statRes env (mkdirParents fs _) p with
    | none => _
    | some d => _) = _
  rw [show (backupPathOf cfg p) = cfg.backup_dir ++ relTo cfg.repo_dir p from rfl] at hstat1
  rw [hstat1]
  show (if env.failMove p (cfg.backup_dir ++ relTo cfg.repo_dir p) then _ else _) = _
  rw [show cfg.backup_dir ++ relTo cfg.repo_dir p = backupPathOf cfg p from rfl, hmv]
  simp only [Bool.false_eq_true, if_false, mkdirParents]
  rw [show (env.failSymlink p ||
      (fsLookup (setKey (removeKey fs.files p) (backupPathOf cfg p) d) p).isSome ||
      (fsLookup fs.links p).isSome) =
    (true ||
      (fsLookup (setKey (removeKey fs.files p) (backupPathOf cfg p) d) p).isSome ||
      (fsLookup fs.links p).isSome) from by rw [hln]]
  simp only [Bool.true_or, if_true]

/-- A violation-sized file whose relocation attempt fails: the error
message was already recorded, the exception escapes with it. -/
theorem handle_run_error (cfg : RunConfig) (env : Env) (fs : FS) (p : FsPath)
    (d : FileData) (fs' : FS) (e : MoveFailure)
    (hauto : cfg.auto_move = true)
    (hsize : maxFileSizeBytes < d.size)
    (hmove : move_large_file cfg env fs p = (fs', .error e)) :
    handle_file_size_run cfg env fs p d.size =
      ([.sizeError (relTo cfg.repo_dir p)], fs', some e) := by
  unfold handle_file_size_run
  rw [if_pos ((sizeMB_gt_100_iff d.size).mpr hsize), hauto]
  simp only [if_true]
  rw [hmove]

/-- A violation-sized file whose relocation succeeds. -/
theorem handle_run_moved (cfg : RunConfig) (env : Env) (fs : FS) (p : FsPath)
    (d : FileData) (fs' : FS) (msg : IssueMsg)
    (hauto : cfg.auto_move = true)
    (hsize : maxFileSizeBytes < d.size)
    (hmove : move_large_file cfg env fs p = (fs', .ok msg)) :
    handle_file_size_run cfg env fs p d.size =
      ([.sizeError (relTo cfg.repo_dir p), msg], fs', none) := by
  unfold handle_file_size_run
  rw [if_pos ((sizeMB_gt_100_iff d.size).mpr hsize), hauto]
  simp only [if_true]
  rw [hmove]

/-- A warning-sized file only records its warning. -/
theorem handle_run_warning (cfg : RunConfig) (env : Env) (fs : FS) (p : FsPath)
    (s : Nat) (h50 : warnFileSizeBytes < s) (h100 : s ≤ maxFileSizeBytes) :
    handle_file_size_run cfg env fs p s =
      ([.sizeWarning (relTo cfg.repo_dir p)], fs, none) := by
  unfold handle_file_size_run
  rw [if_neg (fun hc => absurd ((sizeMB_gt_100_iff s).mp hc) (not_lt.mpr h100)),
      if_pos ((sizeMB_gt_50_iff s).mpr h50)]

/-- A normal-sized file records nothing. -/
theorem handle_run_normal (cfg : RunConfig) (env : Env) (fs : FS) (p : FsPath)
    (s : Nat) (h50 : s ≤ warnFileSizeBytes) (hmw : warnFileSizeBytes ≤ maxFileSizeBytes) :
    handle_file_size_run cfg env fs p s = ([], fs, none) := by
  unfold handle_file_size_run
  rw [if_neg (fun hc => absurd ((sizeMB_gt_100_iff s).mp hc) (by omega)),
      if_neg (fun hc => absurd ((sizeMB_gt_50_iff s).mp hc) (not_lt.mpr h50))]

/-- One-step unfolding of the loop body. -/
theorem processPaths_cons (cfg : RunConfig) (env : Env) (fs : FS)
    (p : FsPath) (rest : List FsPath) :
    processPaths cfg env fs (p :: rest) =
      match statRes env fs p with
      | none => ([], fs, true)
      | some d =>
        match handle_file_size_run cfg env fs p d.size with
        | (iss, fs', some _) => (iss, fs', true)
        | (iss, fs', none) =>
          let r := processPaths cfg env fs' rest
          (iss ++ r.1, r.2.1, r.2.2) := rfl

/-- A `stat` failure fires the enclosing `except`: the loop stops with
nothing recorded for the failing entry or any later one. -/
theorem processPaths_cons_statFail (cfg : RunConfig) (env : Env) (fs : FS)
    (p : FsPath) (rest : List FsPath)
    (hstat : statRes env fs p = none) :
    processPaths cfg env fs (p :: rest) = ([], fs, true) := by
  rw [processPaths_cons, hstat]

/-- An exception escaping `_handle_file_size` fires the enclosing
`except`: the loop stops with the issues recorded so far. -/
theorem processPaths_cons_error (cfg : RunConfig) (env : Env) (fs : FS)
    (p : FsPath) (rest : List FsPath) (d : FileData)
    (iss : List IssueMsg) (fs' : FS) (e : MoveFailure)
    (hstat : statRes env fs p = some d)
    (hhandle : handle_file_size_run cfg env fs p d.size = (iss, fs', some e)) :
    processPaths cfg env fs (p :: rest) = (iss, fs', true) := by
  rw [processPaths_cons]
  simp only [hstat]
  rw [hhandle]

/-- A handled entry lets the loop continue on the updated state. -/
theorem processPaths_cons_ok (cfg : RunConfig) (env : Env) (fs : FS)
    (p : FsPath) (rest : List FsPath) (d : FileData)
    (iss : List IssueMsg) (fs' : FS)
    (hstat : statRes env fs p = some d)
    (hhandle : handle_file_size_run cfg env fs p d.size = (iss, fs', none)) :
    processPaths cfg env fs (p :: rest) =
      (iss ++ (processPaths cfg env fs' rest).1,
       (processPaths cfg env fs' rest).2.1,
       (processPaths cfg env fs' rest).2.2) := by
  rw [processPaths_cons]
  simp only [hstat]
  rw [hhandle]

/-- C2 counterexample: when relocating the first oversized file fails at
the move step, the claim's promises all fail at once — no record of any
kind captures which step failed (the run's issue list holds only the
pre-existing size-error line for `f1`), and the run is not recoverable at
the scan level: the second oversized file `f2` is never processed, its
violation appearing nowhere.  Only the file table being left untouched
matches the claim. -/
theorem C2_relocation_failure_cex :
    (check_file_sizes_run c2cfg c2env c2fs).1 = [.sizeError ["f1"]] ∧
    (check_file_sizes_run c2cfg c2env c2fs).2.2 = true ∧
    (check_file_sizes_run c2cfg c2env c2fs).2.1.files = c2fs.files := by
  have hmove := move_large_file_moveFailed c2cfg c2env c2fs ["repo", "f1"]
    ⟨209715200, [1], 11, 12⟩ (by decide) (by decide) (by decide)
  have hhandle := handle_run_error c2cfg c2env c2fs ["repo", "f1"]
    ⟨209715200, [1], 11, 12⟩ _ .moveFailed rfl (by decide) hmove
  have hrun : check_file_sizes_run c2cfg c2env c2fs =
      ([.sizeError (relTo c2cfg.repo_dir ["repo", "f1"])],
        mkdirParents c2fs (backupPathOf c2cfg ["repo", "f1"]).dropLast, true) := by
    have hscan : scanPaths c2cfg c2fs = [["repo", "f1"], ["repo", "f2"]] := by decide
    unfold check_file_sizes_run
    rw [hscan]
    exact processPaths_cons_error c2cfg c2env c2fs ["repo", "f1"] [["repo", "f2"]]
      ⟨209715200, [1], 11, 12⟩ _ _ .moveFailed (by decide) hhandle
  rw [hrun]
  exact ⟨by decide, rfl, rfl⟩

/-- C2 amended: a relocation failure is logged and re-raised, which
aborts the remainder of the file-size scan — later files are not
processed and no structured `RelocationFailed` record is produced (the
issue list gains only the size-error line written before the attempt).
What survives of the claim: when the move step itself fails the original
file is left untouched (only backup directories were created), and when
the symlink step fails the state the error reports is exactly the
dangerous partial one, the file present only in the backup location. -/
theorem C2_relocation_failure_amended (cfg : RunConfig) (env : Env) (fs : FS)
    (p : FsPath) (rest : List FsPath) (d : FileData)
    (hauto : cfg.auto_move = true)
    (hpre : cfg.repo_dir.isPrefixOf p = true)
    (hstat : statRes env fs p = some d)
    (hsize : maxFileSizeBytes < d.size) :
    (env.failMove p (backupPathOf cfg p) = true →
      processPaths cfg env fs (p :: rest) =
        ([.sizeError (relTo cfg.repo_dir p)],
          mkdirParents fs (backupPathOf cfg p).dropLast, true) ∧
      (mkdirParents fs (backupPathOf cfg p).dropLast).files = fs.files ∧
      (mkdirParents fs (backupPathOf cfg p).dropLast).links = fs.links) ∧
    (env.failMove p (backupPathOf cfg p) = false → env.failSymlink p = true →
      backupPathOf cfg p ≠ p →
      (processPaths cfg env fs (p :: rest)).1 = [.sizeError (relTo cfg.repo_dir p)] ∧
      (processPaths cfg env fs (p :: rest)).2.2 = true ∧
      fsLookup (processPaths cfg env fs (p :: rest)).2.1.files p = none ∧
      fsLookup (processPaths cfg env fs (p :: rest)).2.1.files (backupPathOf cfg p) =
        some d) := by
  constructor
  · intro hmv
    have hmove := move_large_file_moveFailed cfg env fs p d hpre hstat hmv
    have hhandle := handle_run_error cfg env fs p d _ .moveFailed hauto hsize hmove
    exact ⟨processPaths_cons_error cfg env fs p rest d _ _ .moveFailed hstat hhandle,
      rfl, rfl⟩
  · intro hmv hln hneq
    have hmove := move_large_file_symlinkFailed cfg env fs p d hpre hstat hmv hln
    have hhandle := handle_run_error cfg env fs p d _ .symlinkFailed hauto hsize hmove
    rw [processPaths_cons_error cfg env fs p rest d _ _ .symlinkFailed hstat hhandle]
    refine ⟨rfl, rfl, ?_, fsLookup_setKey_self _ _ _⟩
    rw [fsLookup_setKey_ne _ hneq, fsLookup_removeKey_self]

/-- C2 witness: both branches of the amended theorem at concrete states —
a failing move leaves the file table and link table untouched and aborts
the scan; a failing symlink leaves the file only at the backup path and
aborts the scan. -/
theorem C2_relocation_failure_witness :
    (processPaths c2cfg c2env c2fs [["repo", "f1"], ["repo", "f2"]] =
        ([.sizeError (relTo c2cfg.repo_dir ["repo", "f1"])],
          mkdirParents c2fs (backupPathOf c2cfg ["repo", "f1"]).dropLast, true) ∧
      (mkdirParents c2fs (backupPathOf c2cfg ["repo", "f1"]).dropLast).files = c2fs.files ∧
      (mkdirParents c2fs (backupPathOf c2cfg ["repo", "f1"]).dropLast).links = c2fs.links) ∧
    ((processPaths c2cfg c2envLink c2fs [["repo", "f1"], ["repo", "f2"]]).1 =
        [.sizeError (relTo c2cfg.repo_dir ["repo", "f1"])] ∧
      (processPaths c2cfg c2envLink c2fs [["repo", "f1"], ["repo", "f2"]]).2.2 = true ∧
      fsLookup (processPaths c2cfg c2envLink c2fs
          [["repo", "f1"], ["repo", "f2"]]).2.1.files ["repo", "f1"] = none ∧
      fsLookup (processPaths c2cfg c2envLink c2fs
          [["repo", "f1"], ["repo", "f2"]]).2.1.files
        (backupPathOf c2cfg ["repo", "f1"]) = some ⟨209715200, [1], 11, 12⟩) :=
  ⟨(C2_relocation_failure_amended c2cfg c2env c2fs ["repo", "f1"] [["repo", "f2"]]
      ⟨209715200, [1], 11, 12⟩ rfl (by decide) (by decide) (by decide)).1 (by decide),
   (C2_relocation_failure_amended c2cfg c2envLink c2fs ["repo", "f1"] [["repo", "f2"]]
      ⟨209715200, [1], 11, 12⟩ rfl (by decide) (by decide) (by decide)).2
     (by decide) (by decide) (by decide)⟩

/-- C4 counterexample: a single unreadable entry (`repo/b`, whose `stat`
raises) is not reported as a classification-level error, and traversal
does not continue — the scan stops inside the enclosing `except` with
only `repo/a`'s warning recorded, and the perfectly readable `repo/c` is
never classified. -/
theorem C4_unreadable_entry_cex :
    check_file_sizes_run c4cfg c4env c4fs = ([.sizeWarning ["a"]], c4fs, true) ∧
    IssueMsg.sizeWarning ["c"] ∉ (check_file_sizes_run c4cfg c4env c4fs).1 := by
  have hwarn := handle_run_warning c4cfg c4env c4fs ["repo", "a"] 62914560
    (by decide) (by decide)
  have hrun : check_file_sizes_run c4cfg c4env c4fs = ([.sizeWarning ["a"]], c4fs, true) := by
    have hscan : scanPaths c4cfg c4fs = [["repo", "a"], ["repo", "b"], ["repo", "c"]] := by
      decide
    unfold check_file_sizes_run
    rw [hscan,
      processPaths_cons_ok c4cfg c4env c4fs ["repo", "a"] [["repo", "b"], ["repo", "c"]]
        ⟨62914560, [1], 1, 1⟩ _ _ (by decide) hwarn,
      processPaths_cons_statFail c4cfg c4env c4fs ["repo", "b"] [["repo", "c"]] (by decide)]
    decide
  refine ⟨hrun, ?_⟩
  rw [hrun]
  decide

/-- C4 amended: a per-entry read failure (`stat` raising) is not
recoverable within the scan: the loop stops at the failing entry inside
the enclosing `except`, recording no classification-level error for it
and leaving every later entry unclassified; the state is returned
unchanged.  (ver2's handler swallows the exception so the overall run
continues with the other checks and no `ScanError` exists; ver3 re-raises
it.) -/
theorem C4_unreadable_entry_amended (cfg : RunConfig) (env : Env) (fs : FS)
    (p : FsPath) (rest : List FsPath)
    (hstat : statRes env fs p = none) :
    processPaths cfg env fs (p :: rest) = ([], fs, true) :=
  processPaths_cons_statFail cfg env fs p rest hstat

/-- C4 witness: the amended behaviour at the concrete failing entry
`repo/b`. -/
theorem C4_unreadable_entry_witness :
    processPaths c4cfg c4env c4fs [["repo", "b"], ["repo", "c"]] = ([], c4fs, true) :=
  C4_unreadable_entry_amended c4cfg c4env c4fs ["repo", "b"] [["repo", "c"]] (by decide)

/-! ### Claim C10 — idempotence with relocation off -/
/-- With `auto_move` disabled, `_handle_file_size` never mutates the
filesystem and never raises. -/
theorem handle_run_no_auto (cfg : RunConfig) (env : Env) (fs : FS) (p : FsPath)
    (s : Nat) (h : cfg.auto_move = false) :
    (handle_file_size_run cfg env fs p s).2.1 = fs ∧
    (handle_file_size_run cfg env fs p s).2.2 = none := by
  unfold handle_file_size_run
  rw [h]
  split_ifs <;> first | exact ⟨rfl, rfl⟩ | simp_all

/-- With `auto_move` disabled the scan loop is a pure fold: the
filesystem it returns is the one it started from. -/
theorem processPaths_fs_invariant (cfg : RunConfig) (env : Env)
    (h : cfg.auto_move = false) :
    ∀ (l : List FsPath) (fs : FS), (processPaths cfg env fs l).2.1 = fs := by
  intro l
  induction l with
  | nil => intro fs; rfl
  | cons p rest ih =>
    intro fs
    cases hs : statRes env fs p with
    | none => rw [processPaths_cons_statFail cfg env fs p rest hs]
    | some d =>
      have hh := handle_run_no_auto cfg env fs p d.size h
      have he : handle_file_size_run cfg env fs p d.size =
          ((handle_file_size_run cfg env fs p d.size).1, fs, none) :=
        Prod.ext rfl (Prod.ext hh.1 hh.2)
      rw [processPaths_cons_ok cfg env fs p rest d _ fs hs he]
      exact ih fs

/-- C10: with auto-relocation disabled, a full audit performs no
filesystem mutation, so running it twice on the unchanged tree produces
identical summaries — the same issue list (hence the same classification
set), the same final state, and the same abort flag. -/
theorem C10_idempotent_audit (cfg : RunConfig) (env : Env) (fs : FS)
    (h : cfg.auto_move = false) :
    (runAudit cfg env fs).2.1 = fs ∧
    runAudit cfg env ((runAudit cfg env fs).2.1) = runAudit cfg env fs := by
  have hfs : (runAudit cfg env fs).2.1 = fs :=
    processPaths_fs_invariant cfg env h (scanPaths cfg fs) fs
  exact ⟨hfs, by rw [hfs]⟩

/-- C10 witness: a concrete audit with relocation off — the state comes
back unchanged even though the tree holds an oversized file, and a second
run reproduces the first. -/
theorem C10_idempotent_audit_witness :
    (runAudit c10cfg c10env c10fs).2.1 = c10fs ∧
    runAudit c10cfg c10env ((runAudit c10cfg c10env c10fs).2.1) =
      runAudit c10cfg c10env c10fs :=
  C10_idempotent_audit c10cfg c10env c10fs rfl

/-- C1 witness: the amended trichotomy instantiated at a 60 MB file. -/
theorem C1_size_trichotomy_witness :
    (classifyFileSize_ver2 62914560 = .SizeViolation ↔ maxFileSizeBytes < 62914560) ∧
    (classifyFileSize_ver2 62914560 = .SizeWarning ↔
      warnFileSizeBytes < 62914560 ∧ 62914560 ≤ maxFileSizeBytes) ∧
    (classifyFileSize_ver2 62914560 = .Normal ↔ 62914560 ≤ warnFileSizeBytes) :=
  C1_size_trichotomy_amended 62914560

/-- C3 witness: constructing the default policy values succeeds. -/
theorem C3_construction_total_witness :
    mkGitHubLimits 100 50 1000 100 5 1 = .ok ⟨100, 50, 1000, 100, 5, 1⟩ :=
  C3_construction_total_amended 100 50 1000 100 5 1
